import Mathlib

/-!
Verification of the session-routing and pending-selection core of the
Slack <-> tmux bridge bot (`skill/bot.py`).

The Python source is shallowly embedded: message text is modelled as
`List Char`, the module-level `pending_messages` dict as an association
list with Python-dict semantics, the set of live tmux sessions as an
environment record, and each Slack handler as a pure function from
(configuration, environment, pending table, event) to (new pending
table, list of observable outputs).  Outputs record every `say` reply,
every interactive button prompt, and every tmux `send-keys` invocation.

A second, lower-level model (`ProcResult`) embeds the individual
`subprocess.run` calls of the tmux adapter functions, including the
possibility that launching the `tmux` binary itself raises
(`FileNotFoundError`), which the Python code does not catch.
-/

namespace SlackBridge

/-- Text is modelled as a list of characters (Python `str`). -/
abbrev Str := List Char

/-- Python `\s` / `str.strip` whitespace, restricted to the ASCII
whitespace characters (space, tab, LF, CR, vertical tab, form feed). -/
def isWS (c : Char) : Bool :=
  c = ' ' || c = '\t' || c = '\n' || c = '\r' || c = '\x0b' || c = '\x0c'

/-- Python `str.strip()`: drop leading and trailing whitespace. -/
def pstrip (s : Str) : Str :=
  ((s.dropWhile isWS).reverse.dropWhile isWS).reverse

/-- Python `str.lower()` (ASCII case folding). -/
def toLowerL (s : Str) : Str := s.map Char.toLower

/-- `startsWithL pre s` models Python `s.startswith(pre)`. -/
def startsWithL : Str → Str → Bool
  | [], _ => true
  | _ :: _, [] => false
  | p :: ps, c :: cs => p = c && startsWithL ps cs

/-- Python `str.splitlines()` (universal newlines `\n`, `\r`, `\r\n`). -/
def splitlinesAux : Str → Str → List Str
  | [], acc => if acc = [] then [] else [acc.reverse]
  | '\r' :: '\n' :: rest, acc => acc.reverse :: splitlinesAux rest []
  | '\r' :: rest, acc => acc.reverse :: splitlinesAux rest []
  | '\n' :: rest, acc => acc.reverse :: splitlinesAux rest []
  | c :: rest, acc => splitlinesAux rest (c :: acc)

/-- Python `str.splitlines()`. -/
def splitlines (s : Str) : List Str := splitlinesAux s []

/-- Python `str.split(maxsplit=1)`: split on runs of whitespace,
at most once; leading whitespace is skipped and a remainder consisting
only of whitespace is dropped. -/
def pySplitOnce (s : Str) : List Str :=
  let s1 := s.dropWhile isWS
  if s1 = [] then []
  else
    let tok := s1.takeWhile (fun c => !isWS c)
    let rest := (s1.dropWhile (fun c => !isWS c)).dropWhile isWS
    if rest = [] then [tok] else [tok, rest]

/-- Decimal rendering of a natural number (Python f-string `{n}`). -/
def natStr (n : Nat) : Str := (toString n).toList

/-! ### The pending-messages table

`pending_messages` is a module-level Python `dict[str, str]`; we model
it as an association list whose operations have dict semantics (insert
overwrites an existing key in place, `pop` removes the key if present). -/

/-- The `pending_messages` table. -/
abbrev Dict := List (Str × Str)

/-- Python `d.get(k)` / `d[k]`: value of the first (unique) matching key. -/
def dictLookup (d : Dict) (k : Str) : Option Str :=
  match d with
  | [] => none
  | (k', v) :: rest => if k' = k then some v else dictLookup rest k

/-- Key removal, as performed by a successful `d.pop(k)`. -/
def dictErase (d : Dict) (k : Str) : Dict :=
  d.filter (fun e => e.1 ≠ k)

/-- Python `d[k] = v`: overwrite in place when the key exists,
append otherwise. -/
def dictInsert (d : Dict) (k v : Str) : Dict :=
  match d with
  | [] => [(k, v)]
  | (k', v') :: rest =>
      if k' = k then (k, v) :: rest else (k', v') :: dictInsert rest k v

/-! ### Subprocess-level model of the tmux adapter

Each `subprocess.run` call either launches and yields a return code and
captured stdout, or fails to launch at all (e.g. `FileNotFoundError`
when the `tmux` binary is absent), in which case Python raises.  The
adapter functions contain no `try`/`except`, so a launch failure
propagates to the caller; this is modelled with `Except Unit`. -/

/-- Outcome of one `subprocess.run` invocation. -/
inductive ProcResult where
  | ok (returncode : Int) (stdout : Str)
  | launchFail
  deriving DecidableEq

/-- `tmux_list_sessions()` at the subprocess level:
`["tmux", "list-sessions", "-F", "#{session_name}"]` with
`capture_output`; nonzero exit yields `[]`, otherwise the stdout lines
are stripped and blank lines dropped. -/
def tmux_list_sessions_impl (res : ProcResult) : Except Unit (List Str) :=
  match res with
  | .launchFail => .error ()
  | .ok rc out =>
      if rc ≠ 0 then .ok []
      else .ok (((splitlines out).map pstrip).filter (fun s => s ≠ []))

/-- `tmux_session_exists(session)` at the subprocess level:
`["tmux", "has-session", "-t", session]`; true iff exit code 0. -/
def tmux_session_exists_impl (res : ProcResult) : Except Unit Bool :=
  match res with
  | .launchFail => .error ()
  | .ok rc _ => .ok (rc == 0)

/-- `tmux_send(session, text)` at the subprocess level: the
`has-session` probe, then the literal `send-keys -l` write, then the
`send-keys Enter` commit.  The return codes of the two `send-keys`
calls are never inspected. -/
def tmux_send_impl (has send1 send2 : ProcResult) : Except Unit Bool :=
  match has with
  | .launchFail => .error ()
  | .ok rc _ =>
      if rc ≠ 0 then .ok false
      else
        match send1 with
        | .launchFail => .error ()
        | .ok _ _ =>
            match send2 with
            | .launchFail => .error ()
            | .ok _ _ => .ok true

/-- `tmux_capture(session)` at the subprocess level: the `has-session`
probe, then `capture-pane`; the capture's return code is never
inspected (a failed capture has empty stdout and yields `"(empty)"`). -/
def tmux_capture_impl (has cap : ProcResult) : Except Unit Str :=
  match has with
  | .launchFail => .error ()
  | .ok rc _ =>
      if rc ≠ 0 then .ok "(no session)".toList
      else
        match cap with
        | .launchFail => .error ()
        | .ok _ out =>
            .ok (if pstrip out = [] then "(empty)".toList else pstrip out)

/-! ### High-level model

For the routing and pending-selection logic the tmux host is modelled
by an environment: the ordered list of live session names (as returned
by `tmux list-sessions`) and the current pane content of each session.
The environment is constant during the handling of one event. -/

/-- The tmux host as seen by one event handler. -/
structure Env where
  sessions : List Str
  screen : Str → Str

/-- `tmux_list_sessions()`. -/
def tmux_list_sessions (env : Env) : List Str := env.sessions

/-- `tmux_session_exists(session)`. -/
def tmux_session_exists (env : Env) (s : Str) : Bool :=
  decide (s ∈ env.sessions)

/-- Bot configuration: `SLACK_ALLOWED_USER` and `TMUX_SESSION_NAME`. -/
structure Config where
  allowed_user : Str
  default_session : Str

/-- `is_allowed(user_id)`. -/
def is_allowed (cfg : Config) (user : Str) : Bool :=
  decide (user = cfg.allowed_user)

/-- The opaque `value` carried by a button. -/
inductive BVal where
  | noval
  | plain (s : Str)
  | pair (msg_id session : Str)
  deriving DecidableEq

/-- One interactive button of a Block Kit message. -/
structure Button where
  action_id : Str
  value : BVal
  deriving DecidableEq

/-- Observable effects of one handler invocation: `say` replies,
interactive prompts, and tmux `send-keys` writes. -/
inductive Output where
  | reply (text : Str)
  | prompt (text : Str) (buttons : List Button)
  | sendKeys (session text : Str)
  | sendEnter (session : Str)
  deriving DecidableEq

/-- `tmux_send(session, text)`: existence guard, then the literal
write and the Enter commit as two sequential operations. -/
def tmux_send (env : Env) (s t : Str) : Bool × List Output :=
  if tmux_session_exists env s then (true, [.sendKeys s t, .sendEnter s])
  else (false, [])

/-- `tmux_capture(session)`: placeholder when the session is missing,
otherwise the stripped pane content or the `(empty)` placeholder. -/
def tmux_capture (env : Env) (s : Str) : Str :=
  if tmux_session_exists env s then
    (if pstrip (env.screen s) = [] then "(empty)".toList else pstrip (env.screen s))
  else "(no session)".toList

/-! ### Reply texts -/

/-- `":x: `{session}` not found."` -/
def notFoundMsg (s : Str) : Str :=
  ":x: `".toList ++ s ++ "` not found.".toList

/-- `":arrow_right: Sent to `{session}`:\n> {prompt}"` -/
def confirmMsg (s p : Str) : Str :=
  ":arrow_right: Sent to `".toList ++ s ++ "`:\n> ".toList ++ p

/-- `":x: Failed to send to `{session}`."` -/
def sendFailMsg (s : Str) : Str :=
  ":x: Failed to send to `".toList ++ s ++ "`.".toList

/-- Reply for an empty instruction. -/
def emptyMsg : Str :=
  "Message is empty. Please type an instruction.".toList

/-- Zero-session reply on the auto-detection path. -/
def noSessionsMsgRun : Str :=
  ":x: No tmux sessions found. Run `tcc` on your Mac first.".toList

/-- Zero-session reply of the `sessions`/`status` commands. -/
def noSessionsMsgStart : Str :=
  ":x: No tmux sessions found. Start one with `tcc` on your Mac.".toList

/-- Zero-session reply of the quick actions. -/
def noSessionsQuickMsg : Str :=
  ":x: No tmux sessions found.".toList

/-- Reply to a click whose value fails to deserialize. -/
def clickErrorMsg : Str :=
  ":x: Error. Please send the message again.".toList

/-- Reply to a click whose pending id is no longer in the table. -/
def expiredMsg : Str :=
  ":warning: Message expired. Please send it again.".toList

/-- `"  - `{s}`"` -/
def sessionLine (s : Str) : Str :=
  "  - `".toList ++ s ++ "`".toList

/-- The `sessions`/`ls` listing. -/
def activeSessionsMsg (sessions : List Str) : Str :=
  ":computer: Active sessions (".toList ++ natStr sessions.length
    ++ "):\n".toList ++ List.intercalate ['\n'] (sessions.map sessionLine)

/-- The `status <name>` pane display. -/
def statusPaneMsg (target pane : Str) : Str :=
  ":white_check_mark: `".toList ++ target ++ "` is running\n```\n".toList
    ++ pane ++ "\n```".toList

/-- One line of the argumentless `status` summary. -/
def statusLine (env : Env) (s : Str) : Str :=
  let pane := tmux_capture env s
  let nonBlank := (splitlines pane).filter (fun l => pstrip l ≠ [])
  let lastLine := nonBlank.getLastD "(empty)".toList
  let shown := if 80 < lastLine.length then lastLine.take 80 ++ "...".toList else lastLine
  ":white_check_mark: `".toList ++ s ++ "`: ".toList ++ shown

/-- The argumentless `status` summary. -/
def statusSummaryMsg (env : Env) (sessions : List Str) : Str :=
  ":computer: Sessions (".toList ++ natStr sessions.length ++ "):\n".toList
    ++ List.intercalate ['\n'] (sessions.map (statusLine env))

/-- `":white_check_mark: Approved `{session}`"` -/
def approvedMsg (s : Str) : Str :=
  ":white_check_mark: Approved `".toList ++ s ++ "`".toList

/-- `":no_entry_sign: Denied `{session}`"` -/
def deniedMsg (s : Str) : Str :=
  ":no_entry_sign: Denied `".toList ++ s ++ "`".toList

/-- `":x: Failed to send to `{session}`"` (hook variant, no period). -/
def hookFailMsg (s : Str) : Str :=
  ":x: Failed to send to `".toList ++ s ++ "`".toList

/-! ### Parsing and dispatch -/

/-- `parse_mention(text)`: the regex `^@(\S+)\s+(.*)` with `re.DOTALL`.
The anchored greedy match succeeds iff the text starts with `@`,
followed by at least one non-whitespace character (group 1 is the
maximal such run) and then at least one whitespace character; group 2
is everything after the maximal whitespace run.  On a match the result
is `(group1, group2.strip())`, otherwise `(None, text)`. -/
def parse_mention (text : Str) : Option Str × Str :=
  match text with
  | c :: rest =>
      if c = '@' then
        let name := rest.takeWhile (fun a => !isWS a)
        let tail := rest.dropWhile (fun a => !isWS a)
        if name ≠ [] ∧ tail ≠ [] then (some name, pstrip (tail.dropWhile isWS))
        else (none, text)
      else (none, text)
  | [] => (none, text)

/-- `send_to_session(session, prompt, say)`. -/
def send_to_session (env : Env) (s p : Str) : List Output :=
  if !tmux_session_exists env s then [.reply (notFoundMsg s)]
  else
    let r := tmux_send env s p
    if r.1 then r.2 ++ [.reply (confirmMsg s p)]
    else r.2 ++ [.reply (sendFailMsg s)]

/-- Pending id of an ambiguous instruction: `f"{user}_{ts}"`. -/
def selMsgId (user ts : Str) : Str := user ++ '_' :: ts

/-- Pending id of a quick action: `f"quick_{text}_{len(pending_messages)}"`. -/
def quickMsgId (text : Str) (n : Nat) : Str :=
  "quick_".toList ++ text ++ '_' :: natStr n

/-- A session-picker button: action id `f"send_to_{msg_id}_{name}"`,
value the serialized pair `{"msg_id": msg_id, "session": name}`. -/
def mkSelBtn (msg_id name : Str) : Button :=
  ⟨"send_to_".toList ++ msg_id ++ '_' :: name, .pair msg_id name⟩

/-- Section text of the quick-action picker. -/
def quickSelectText (t : Str) : Str :=
  "*Select target for `".toList ++ t ++ "`:*".toList

/-- Section text of the message picker. -/
def selectSessionText (p : Str) : Str :=
  ":arrow_right: *Select target session:*\n> ".toList ++ p

/-- `quick_send_to_session(session, text, say)`. -/
def quick_send_to_session (env : Env) (pending : Dict) (session text : Str) :
    Dict × List Output :=
  if session ≠ [] then (pending, send_to_session env session text)
  else
    let sessions := tmux_list_sessions env
    if sessions.length = 0 then (pending, [.reply noSessionsQuickMsg])
    else if sessions.length = 1 then
      (pending, send_to_session env (sessions.headD []) text)
    else
      let msg_id := quickMsgId text pending.length
      (dictInsert pending msg_id text,
       [.prompt (quickSelectText text) (sessions.map (mkSelBtn msg_id))])

/-- `show_menu(say)`. -/
def show_menu (env : Env) : List Output :=
  let sessions := tmux_list_sessions env
  let quick : List Button :=
    [⟨"quick_y".toList, .noval⟩, ⟨"quick_n".toList, .noval⟩,
     ⟨"quick_status".toList, .noval⟩, ⟨"quick_sessions".toList, .noval⟩]
  let perSession : List Button :=
    if 1 < sessions.length then
      sessions.flatMap (fun s =>
        [⟨"quick_session_y_".toList ++ s, .plain s⟩,
         ⟨"quick_session_n_".toList ++ s, .plain s⟩,
         ⟨"quick_session_status_".toList ++ s, .plain s⟩])
    else []
  [.prompt "Quick action menu".toList (quick ++ perSession)]

/-- `handle_status(prompt, say)`. -/
def handle_status (env : Env) (prompt : Str) : List Output :=
  let parts := pySplitOnce prompt
  let sessions := tmux_list_sessions env
  if 2 ≤ parts.length then
    let target := pstrip (parts.getD 1 [])
    if tmux_session_exists env target then
      let pane := tmux_capture env target
      let shown :=
        if 2500 < pane.length then "...\n".toList ++ pane.drop (pane.length - 2500)
        else pane
      [.reply (statusPaneMsg target shown)]
    else [.reply (notFoundMsg target)]
  else if sessions = [] then [.reply noSessionsMsgStart]
  else [.reply (statusSummaryMsg env sessions)]

/-! ### Event handlers -/

/-- One inbound Slack message event; absent string fields are modelled
as the empty string (matching `event.get(key, "")` and Python
truthiness of the `bot_id`/`subtype` gate). -/
structure MsgEvent where
  bot_id : Str
  subtype : Str
  user : Str
  text : Str
  channel_type : Str
  ts : Str

/-- The instruction text of one message event: the raw text stripped,
with an optional case-insensitive `cc:` prefix removed and the
remainder stripped again (`handle_message` lines 230-232). -/
def instrPrompt (rawText : Str) : Str :=
  let text := pstrip rawText
  if startsWithL "cc:".toList (toLowerL text) then pstrip (text.drop 3) else text

/-- `handle_message(event, say)`. -/
def handle_message (cfg : Config) (env : Env) (pending : Dict) (ev : MsgEvent) :
    Dict × List Output :=
  if ev.bot_id ≠ [] ∨ ev.subtype ≠ [] then (pending, [])
  else
    let user := ev.user
    if ev.channel_type ≠ "im".toList then (pending, [])
    else if ¬ is_allowed cfg user then (pending, [])
    else
      let prompt := instrPrompt ev.text
      if prompt = [] then (pending, [.reply emptyMsg])
      else
        let cmd := pstrip (toLowerL prompt)
        if startsWithL "status".toList cmd then (pending, handle_status env prompt)
        else if cmd = "sessions".toList ∨ cmd = "ls".toList then
          (pending,
           [.reply (if tmux_list_sessions env ≠ [] then activeSessionsMsg (tmux_list_sessions env)
                    else noSessionsMsgStart)])
        else if cmd = "m".toList ∨ cmd = "menu".toList then (pending, show_menu env)
        else
          match parse_mention prompt with
          | (some target, rest) => (pending, send_to_session env target rest)
          | (none, prompt2) =>
              let sessions := tmux_list_sessions env
              if sessions.length = 0 then (pending, [.reply noSessionsMsgRun])
              else if sessions.length = 1 then
                (pending, send_to_session env (sessions.headD []) prompt2)
              else
                let msg_id := selMsgId user ev.ts
                (dictInsert pending msg_id prompt2,
                 [.prompt (selectSessionText prompt2) (sessions.map (mkSelBtn msg_id))])

/-- Result of `json.loads(action["value"])` inside
`handle_session_select`: either the decode raises (malformed value or
missing key) or it yields the `msg_id`/`session` fields (missing
fields default to the empty string via `data.get(..., "")`). -/
inductive SelectValue where
  | malformed
  | decoded (msg_id session : Str)
  deriving DecidableEq

/-- `handle_session_select(ack, action, say, body)`. -/
def handle_session_select (cfg : Config) (env : Env) (pending : Dict)
    (user : Str) (value : SelectValue) : Dict × List Output :=
  if ¬ is_allowed cfg user then (pending, [])
  else
    match value with
    | .malformed => (pending, [.reply clickErrorMsg])
    | .decoded msg_id session =>
        match dictLookup pending msg_id with
        | none => (pending, [.reply expiredMsg])
        | some prompt => (dictErase pending msg_id, send_to_session env session prompt)

/-- `handle_quick_y`. -/
def handle_quick_y (cfg : Config) (env : Env) (pending : Dict) (user : Str) :
    Dict × List Output :=
  if ¬ is_allowed cfg user then (pending, [])
  else quick_send_to_session env pending [] ['y']

/-- `handle_quick_n`. -/
def handle_quick_n (cfg : Config) (env : Env) (pending : Dict) (user : Str) :
    Dict × List Output :=
  if ¬ is_allowed cfg user then (pending, [])
  else quick_send_to_session env pending [] ['n']

/-- `handle_quick_status`. -/
def handle_quick_status (cfg : Config) (env : Env) (pending : Dict) (user : Str) :
    Dict × List Output :=
  if ¬ is_allowed cfg user then (pending, [])
  else (pending, handle_status env "status".toList)

/-- `handle_quick_sessions`. -/
def handle_quick_sessions (cfg : Config) (env : Env) (pending : Dict) (user : Str) :
    Dict × List Output :=
  if ¬ is_allowed cfg user then (pending, [])
  else
    (pending,
     [.reply (if tmux_list_sessions env ≠ [] then activeSessionsMsg (tmux_list_sessions env)
              else noSessionsQuickMsg)])

/-- `handle_quick_menu`. -/
def handle_quick_menu (cfg : Config) (env : Env) (pending : Dict) (user : Str) :
    Dict × List Output :=
  if ¬ is_allowed cfg user then (pending, [])
  else (pending, show_menu env)

/-- `handle_quick_session_y`: the button value is the literal session name. -/
def handle_quick_session_y (cfg : Config) (env : Env) (pending : Dict)
    (user value : Str) : Dict × List Output :=
  if ¬ is_allowed cfg user then (pending, [])
  else (pending, send_to_session env value ['y'])

/-- `handle_quick_session_n`. -/
def handle_quick_session_n (cfg : Config) (env : Env) (pending : Dict)
    (user value : Str) : Dict × List Output :=
  if ¬ is_allowed cfg user then (pending, [])
  else (pending, send_to_session env value ['n'])

/-- `handle_quick_session_status`. -/
def handle_quick_session_status (cfg : Config) (env : Env) (pending : Dict)
    (user value : Str) : Dict × List Output :=
  if ¬ is_allowed cfg user then (pending, [])
  else (pending, handle_status env ("status ".toList ++ value))

/-- `handle_hook_approve`: sends `y` to the carried session name or
the configured default. -/
def handle_hook_approve (cfg : Config) (env : Env) (pending : Dict)
    (user value : Str) : Dict × List Output :=
  if ¬ is_allowed cfg user then (pending, [])
  else
    let session := if value = [] then cfg.default_session else value
    let r := tmux_send env session ['y']
    if r.1 then (pending, r.2 ++ [.reply (approvedMsg session)])
    else (pending, r.2 ++ [.reply (hookFailMsg session)])

/-- `handle_hook_deny`: sends `n` likewise. -/
def handle_hook_deny (cfg : Config) (env : Env) (pending : Dict)
    (user value : Str) : Dict × List Output :=
  if ¬ is_allowed cfg user then (pending, [])
  else
    let session := if value = [] then cfg.default_session else value
    let r := tmux_send env session ['n']
    if r.1 then (pending, r.2 ++ [.reply (deniedMsg session)])
    else (pending, r.2 ++ [.reply (hookFailMsg session)])

/-! ### Concrete fixtures used by witnesses and counterexamples -/

/-- A configuration with allowed user `U1` and default session `claude`. -/
def cfg0 : Config := ⟨"U1".toList, "claude".toList⟩

/-- A host with no live session. -/
def env0 : Env := ⟨[], fun _ => []⟩

/-- A host with the single live session `claude`. -/
def env1 : Env := ⟨["claude".toList], fun _ => "line".toList⟩

/-- A host with the two live sessions `alpha` and `beta`. -/
def env2 : Env := ⟨["alpha".toList, "beta".toList], fun _ => "line".toList⟩

/-- A 100-character payload (longer than the 80-character log cut-off). -/
def longPayload : Str := List.replicate 100 'a'

/-! ### Helper lemmas on the pending table -/

theorem dictLookup_erase_self (d : Dict) (k : Str) :
    dictLookup (dictErase d k) k = none := by
  induction d with
  | nil => rfl
  | cons e rest ih =>
      by_cases h : e.1 = k
      · simpa [dictErase, h] using ih
      · simpa [dictErase, dictLookup, h] using ih

theorem dictLookup_erase_none (d : Dict) (k k' : Str)
    (h : dictLookup d k = none) : dictLookup (dictErase d k') k = none := by
  induction d with
  | nil => rfl
  | cons e rest ih =>
      by_cases h1 : e.1 = k
      · simp [dictLookup, h1] at h
      · simp only [dictLookup, h1, if_neg] at h
        by_cases h2 : e.1 = k'
        · simpa [dictErase, h2] using ih h
        · simpa [dictErase, dictLookup, h1, h2] using ih h

theorem dictLookup_insert_self (d : Dict) (k v : Str) :
    dictLookup (dictInsert d k v) k = some v := by
  induction d with
  | nil => simp [dictInsert, dictLookup]
  | cons e rest ih =>
      by_cases h : e.1 = k
      · simp [dictInsert, dictLookup, h]
      · simpa [dictInsert, dictLookup, h] using ih

theorem dictLookup_insert_ne (d : Dict) (k v k' : Str) (h : k' ≠ k) :
    dictLookup (dictInsert d k v) k' = dictLookup d k' := by
  induction d with
  | nil => simp [dictInsert, dictLookup, Ne.symm h]
  | cons e rest ih =>
      by_cases h1 : e.1 = k
      · simp [dictInsert, dictLookup, h1, Ne.symm h]
      · simp [dictInsert, dictLookup, h1, ih]

theorem length_dictInsert_none (d : Dict) (k v : Str)
    (h : dictLookup d k = none) : (dictInsert d k v).length = d.length + 1 := by
  induction d with
  | nil => rfl
  | cons e rest ih =>
      by_cases h1 : e.1 = k
      · simp [dictLookup, h1] at h
      · simp only [dictLookup, h1, if_neg] at h
        simp [dictInsert, h1, ih h]

theorem length_dictInsert_some (d : Dict) (k v w : Str)
    (h : dictLookup d k = some w) : (dictInsert d k v).length = d.length := by
  induction d with
  | nil => simp [dictLookup] at h
  | cons e rest ih =>
      by_cases h1 : e.1 = k
      · simp [dictInsert, h1]
      · simp only [dictLookup, h1, if_neg] at h
        simp [dictInsert, h1, ih h]

/-! ### Helper lemmas on parsing -/

theorem dropWhile_idem (p : Char → Bool) (l : Str) :
    (l.dropWhile p).dropWhile p = l.dropWhile p := by
  induction l with
  | nil => rfl
  | cons c rest ih =>
      by_cases h : p c
      · simpa [List.dropWhile, h] using ih
      · simp [List.dropWhile, h]

theorem pstrip_dropWhile (s : Str) : pstrip (s.dropWhile isWS) = pstrip s := by
  unfold pstrip
  rw [dropWhile_idem]

theorem dropWhile_ws_append (ws rest : Str) (h : ∀ c ∈ ws, isWS c = true) :
    (ws ++ rest).dropWhile isWS = rest.dropWhile isWS := by
  induction ws with
  | nil => rfl
  | cons c tail ih =>
      have hc : isWS c = true := h c (List.mem_cons_self c tail)
      simpa [List.dropWhile, hc] using ih (fun a ha => h a (List.mem_cons_of_mem c ha))

theorem takeWhile_name_append (name : Str) (w : Char) (ws rest : Str)
    (hname : ∀ c ∈ name, isWS c = false) (hw : isWS w = true) :
    (name ++ w :: ws ++ rest).takeWhile (fun a => !isWS a) = name := by
  induction name with
  | nil => simp [List.takeWhile, hw]
  | cons c tail ih =>
      have hc : isWS c = false := hname c (List.mem_cons_self c tail)
      simpa [List.takeWhile, hc] using ih (fun a ha => hname a (List.mem_cons_of_mem c ha))

theorem dropWhile_name_append (name : Str) (w : Char) (ws rest : Str)
    (hname : ∀ c ∈ name, isWS c = false) (hw : isWS w = true) :
    (name ++ w :: ws ++ rest).dropWhile (fun a => !isWS a) = w :: ws ++ rest := by
  induction name with
  | nil => simp [List.dropWhile, hw]
  | cons c tail ih =>
      have hc : isWS c = false := hname c (List.mem_cons_self c tail)
      simpa [List.dropWhile, hc] using ih (fun a ha => hname a (List.mem_cons_of_mem c ha))

theorem parse_mention_at_pos (rest : Str)
    (hcond : rest.takeWhile (fun a => !isWS a) ≠ [] ∧
             rest.dropWhile (fun a => !isWS a) ≠ []) :
    parse_mention ('@' :: rest)
      = (some (rest.takeWhile (fun a => !isWS a)),
         pstrip ((rest.dropWhile (fun a => !isWS a)).dropWhile isWS)) := by
  show (if ('@' : Char) = '@' then
          if rest.takeWhile (fun a => !isWS a) ≠ [] ∧
             rest.dropWhile (fun a => !isWS a) ≠ [] then
            (some (rest.takeWhile (fun a => !isWS a)),
             pstrip ((rest.dropWhile (fun a => !isWS a)).dropWhile isWS))
          else (none, '@' :: rest)
        else (none, '@' :: rest)) = _
  rw [if_pos rfl, if_pos hcond]

theorem parse_mention_at_neg (rest : Str)
    (hcond : ¬(rest.takeWhile (fun a => !isWS a) ≠ [] ∧
               rest.dropWhile (fun a => !isWS a) ≠ [])) :
    parse_mention ('@' :: rest) = (none, '@' :: rest) := by
  show (if ('@' : Char) = '@' then
          if rest.takeWhile (fun a => !isWS a) ≠ [] ∧
             rest.dropWhile (fun a => !isWS a) ≠ [] then
            (some (rest.takeWhile (fun a => !isWS a)),
             pstrip ((rest.dropWhile (fun a => !isWS a)).dropWhile isWS))
          else (none, '@' :: rest)
        else (none, '@' :: rest)) = _
  rw [if_pos rfl, if_neg hcond]

theorem parse_mention_no_at (c : Char) (rest : Str) (hc : c ≠ '@') :
    parse_mention (c :: rest) = (none, c :: rest) := by
  show (if c = '@' then
          if rest.takeWhile (fun a => !isWS a) ≠ [] ∧
             rest.dropWhile (fun a => !isWS a) ≠ [] then
            (some (rest.takeWhile (fun a => !isWS a)),
             pstrip ((rest.dropWhile (fun a => !isWS a)).dropWhile isWS))
          else (none, c :: rest)
        else (none, c :: rest)) = _
  rw [if_neg hc]

theorem parse_mention_none_snd (t : Str) (h : (parse_mention t).1 = none) :
    (parse_mention t).2 = t := by
  match t with
  | [] => rfl
  | c :: rest =>
      by_cases hc : c = '@'
      · subst hc
        by_cases hcond : (rest.takeWhile (fun a => !isWS a) ≠ [] ∧
                          rest.dropWhile (fun a => !isWS a) ≠ [])
        · rw [parse_mention_at_pos rest hcond] at h
          exact absurd h (by simp)
        · rw [parse_mention_at_neg rest hcond]
      · rw [parse_mention_no_at c rest hc]

/-- Evaluation of `handle_message` on an authorized, non-command,
mention-free instruction: control reaches the session auto-detection
block and the result depends only on the live session list. -/
theorem handle_message_route (cfg : Config) (env : Env) (pending : Dict) (ev : MsgEvent)
    (hbot : ev.bot_id = []) (hsub : ev.subtype = [])
    (hch : ev.channel_type = "im".toList)
    (huser : ev.user = cfg.allowed_user)
    (hP : instrPrompt ev.text ≠ [])
    (hstatus : startsWithL "status".toList (pstrip (toLowerL (instrPrompt ev.text))) = false)
    (hses : pstrip (toLowerL (instrPrompt ev.text)) ≠ "sessions".toList)
    (hls : pstrip (toLowerL (instrPrompt ev.text)) ≠ "ls".toList)
    (hm : pstrip (toLowerL (instrPrompt ev.text)) ≠ "m".toList)
    (hmenu : pstrip (toLowerL (instrPrompt ev.text)) ≠ "menu".toList)
    (hnomention : (parse_mention (instrPrompt ev.text)).1 = none) :
    handle_message cfg env pending ev =
      (if env.sessions.length = 0 then (pending, [.reply noSessionsMsgRun])
       else if env.sessions.length = 1 then
         (pending, send_to_session env (env.sessions.headD []) (instrPrompt ev.text))
       else
         (dictInsert pending (selMsgId ev.user ev.ts) (instrPrompt ev.text),
          [.prompt (selectSessionText (instrPrompt ev.text))
            (env.sessions.map (mkSelBtn (selMsgId ev.user ev.ts)))])) := by
  have hpm : parse_mention (instrPrompt ev.text) = (none, instrPrompt ev.text) :=
    Prod.ext hnomention (parse_mention_none_snd _ hnomention)
  simp only [handle_message, hbot, hsub, hch, huser, hP, hstatus, hses, hls, hm,
    hmenu, hpm, is_allowed, tmux_list_sessions]
  simp

/-! ### Claim theorems -/

/-- C1: a pending id is resolved by at most one click.  The first
authorized click whose value carries an id present in the table
removes that id and dispatches the stored payload once; in any state
where the id is absent, an authorized click carrying it is answered
with the expired reply, with no dispatch and no state change; and no
selection click ever re-creates an absent id. -/
theorem pending_id_resolved_at_most_once
    (cfg : Config) (env : Env) (pending : Dict) (id s p : Str)
    (hfound : dictLookup pending id = some p) :
    handle_session_select cfg env pending cfg.allowed_user (.decoded id s)
      = (dictErase pending id, send_to_session env s p) ∧
    dictLookup (dictErase pending id) id = none ∧
    (∀ (pending2 : Dict) (env2 : Env) (s2 : Str),
        dictLookup pending2 id = none →
        handle_session_select cfg env2 pending2 cfg.allowed_user (.decoded id s2)
          = (pending2, [.reply expiredMsg])) ∧
    (∀ (pending2 : Dict) (env2 : Env) (u : Str) (v : SelectValue),
        dictLookup pending2 id = none →
        dictLookup (handle_session_select cfg env2 pending2 u v).1 id = none) := by
  refine ⟨?_, dictLookup_erase_self pending id, ?_, ?_⟩
  · simp [handle_session_select, is_allowed, hfound]
  · intro pending2 env2 s2 hnone
    simp [handle_session_select, is_allowed, hnone]
  · intro pending2 env2 u v hnone
    by_cases hu : is_allowed cfg u
    · cases v with
      | malformed => simpa [handle_session_select, hu] using hnone
      | decoded id2 s2 =>
          cases hl : dictLookup pending2 id2 with
          | none => simpa [handle_session_select, hu, hl] using hnone
          | some w =>
              simpa [handle_session_select, hu, hl] using
                dictLookup_erase_none pending2 id id2 hnone
    · simpa [handle_session_select, hu] using hnone

theorem pending_id_resolved_at_most_once_witness :
    handle_session_select cfg0 env2 [("i".toList, "p".toList)] cfg0.allowed_user
        (.decoded "i".toList "alpha".toList)
      = (dictErase [("i".toList, "p".toList)] "i".toList,
         send_to_session env2 "alpha".toList "p".toList) ∧
    dictLookup (dictErase [("i".toList, "p".toList)] "i".toList) "i".toList = none ∧
    handle_session_select cfg0 env2 (dictErase [("i".toList, "p".toList)] "i".toList)
        cfg0.allowed_user (.decoded "i".toList "beta".toList)
      = (dictErase [("i".toList, "p".toList)] "i".toList, [.reply expiredMsg]) :=
  have h := pending_id_resolved_at_most_once cfg0 env2 [("i".toList, "p".toList)]
    "i".toList "alpha".toList "p".toList (by decide)
  ⟨h.1, h.2.1, h.2.2.1 _ env2 "beta".toList h.2.1⟩

/-- C2: authorization is a strict gate.  For every message event and
every button click whose acting user is not the configured allowed
user, every handler leaves the pending table untouched and produces no
output (no reply, no prompt, no tmux send), whatever the pending table
contains. -/
theorem unauthorized_event_no_effect
    (cfg : Config) (env : Env) (pending : Dict) (u : Str)
    (hu : u ≠ cfg.allowed_user) :
    (∀ ev : MsgEvent, ev.user = u → handle_message cfg env pending ev = (pending, [])) ∧
    (∀ v : SelectValue, handle_session_select cfg env pending u v = (pending, [])) ∧
    handle_quick_y cfg env pending u = (pending, []) ∧
    handle_quick_n cfg env pending u = (pending, []) ∧
    handle_quick_status cfg env pending u = (pending, []) ∧
    handle_quick_sessions cfg env pending u = (pending, []) ∧
    handle_quick_menu cfg env pending u = (pending, []) ∧
    (∀ value : Str,
      handle_quick_session_y cfg env pending u value = (pending, []) ∧
      handle_quick_session_n cfg env pending u value = (pending, []) ∧
      handle_quick_session_status cfg env pending u value = (pending, []) ∧
      handle_hook_approve cfg env pending u value = (pending, []) ∧
      handle_hook_deny cfg env pending u value = (pending, [])) := by
  have hal : is_allowed cfg u = false := by simp [is_allowed, hu]
  refine ⟨?_, ?_, ?_, ?_, ?_, ?_, ?_, ?_⟩
  · intro ev hev
    have hal2 : is_allowed cfg ev.user = false := hev ▸ hal
    simp only [handle_message, hal2]
    split
    · rfl
    · split
      · rfl
      · simp
  · intro v
    simp [handle_session_select, hal]
  · simp [handle_quick_y, hal]
  · simp [handle_quick_n, hal]
  · simp [handle_quick_status, hal]
  · simp [handle_quick_sessions, hal]
  · simp [handle_quick_menu, hal]
  · intro value
    refine ⟨?_, ?_, ?_, ?_, ?_⟩
    · simp [handle_quick_session_y, hal]
    · simp [handle_quick_session_n, hal]
    · simp [handle_quick_session_status, hal]
    · simp [handle_hook_approve, hal]
    · simp [handle_hook_deny, hal]

theorem unauthorized_event_no_effect_witness :
    handle_message cfg0 env2 [("i".toList, "p".toList)]
        ⟨[], [], "EVE".toList, "run tests".toList, "im".toList, "1".toList⟩
      = ([("i".toList, "p".toList)], []) ∧
    handle_session_select cfg0 env2 [("i".toList, "p".toList)] "EVE".toList
        (.decoded "i".toList "alpha".toList)
      = ([("i".toList, "p".toList)], []) ∧
    handle_quick_y cfg0 env2 [("i".toList, "p".toList)] "EVE".toList
      = ([("i".toList, "p".toList)], []) :=
  have h := unauthorized_event_no_effect cfg0 env2 [("i".toList, "p".toList)]
    "EVE".toList (by decide)
  ⟨h.1 _ rfl, h.2.1 _, h.2.2.1⟩

/-- C6: an authorized click whose value fails to deserialize is
answered with the error reply and nothing else: the pending table is
unchanged and no send occurs. -/
theorem malformed_click_no_mutation (cfg : Config) (env : Env) (pending : Dict) :
    handle_session_select cfg env pending cfg.allowed_user SelectValue.malformed
      = (pending, [.reply clickErrorMsg]) := by
  simp [handle_session_select, is_allowed]

/-- C10: a found pending entry is removed before the dispatch is
attempted — the resulting table is the erased one whatever the
environment — and stays removed when the dispatch fails because the
chosen session no longer exists; a retry click then sees the expired
reply. -/
theorem pending_removed_before_dispatch
    (cfg : Config) (env : Env) (pending : Dict) (id s p : Str)
    (hfound : dictLookup pending id = some p) :
    (∀ env2 : Env,
      (handle_session_select cfg env2 pending cfg.allowed_user (.decoded id s)).1
        = dictErase pending id) ∧
    dictLookup (dictErase pending id) id = none ∧
    (tmux_session_exists env s = false →
      handle_session_select cfg env pending cfg.allowed_user (.decoded id s)
        = (dictErase pending id, [.reply (notFoundMsg s)])) ∧
    (∀ s2 : Str,
      handle_session_select cfg env (dictErase pending id) cfg.allowed_user
          (.decoded id s2)
        = (dictErase pending id, [.reply expiredMsg])) := by
  refine ⟨?_, dictLookup_erase_self pending id, ?_, ?_⟩
  · intro env2
    simp [handle_session_select, is_allowed, hfound]
  · intro hex
    simp [handle_session_select, is_allowed, hfound, send_to_session, hex]
  · intro s2
    simp [handle_session_select, is_allowed, dictLookup_erase_self pending id]

theorem pending_removed_before_dispatch_witness :
    (handle_session_select cfg0 env2 [("i".toList, "p".toList)] cfg0.allowed_user
        (.decoded "i".toList "gone".toList)).1
      = dictErase [("i".toList, "p".toList)] "i".toList ∧
    handle_session_select cfg0 env2 [("i".toList, "p".toList)] cfg0.allowed_user
        (.decoded "i".toList "gone".toList)
      = (dictErase [("i".toList, "p".toList)] "i".toList,
         [.reply (notFoundMsg "gone".toList)]) :=
  have h := pending_removed_before_dispatch cfg0 env2 [("i".toList, "p".toList)]
    "i".toList "gone".toList "p".toList (by decide)
  ⟨h.1 env2, h.2.2.1 (by decide)⟩

/-- C3: for an authorized non-command instruction with no explicit
mention, routing is decided solely by the number of live sessions:
zero sessions yields the no-sessions reply with no pending entry and
no dispatch; exactly one session yields a direct dispatch (literal
write, commit keystroke, confirmation) with no interactive prompt;
two or more sessions yield exactly one pending entry and exactly one
interactive prompt with one selectable control per candidate. -/
theorem routing_by_session_count
    (cfg : Config) (env : Env) (pending : Dict) (ev : MsgEvent)
    (hbot : ev.bot_id = []) (hsub : ev.subtype = [])
    (hch : ev.channel_type = "im".toList)
    (huser : ev.user = cfg.allowed_user)
    (hP : instrPrompt ev.text ≠ [])
    (hstatus : startsWithL "status".toList (pstrip (toLowerL (instrPrompt ev.text))) = false)
    (hses : pstrip (toLowerL (instrPrompt ev.text)) ≠ "sessions".toList)
    (hls : pstrip (toLowerL (instrPrompt ev.text)) ≠ "ls".toList)
    (hm : pstrip (toLowerL (instrPrompt ev.text)) ≠ "m".toList)
    (hmenu : pstrip (toLowerL (instrPrompt ev.text)) ≠ "menu".toList)
    (hnomention : (parse_mention (instrPrompt ev.text)).1 = none) :
    (env.sessions = [] →
      handle_message cfg env pending ev = (pending, [.reply noSessionsMsgRun])) ∧
    (∀ s, env.sessions = [s] →
      handle_message cfg env pending ev
        = (pending, [.sendKeys s (instrPrompt ev.text), .sendEnter s,
                     .reply (confirmMsg s (instrPrompt ev.text))])) ∧
    (∀ a b rest2, env.sessions = a :: b :: rest2 →
      handle_message cfg env pending ev
        = (dictInsert pending (selMsgId ev.user ev.ts) (instrPrompt ev.text),
           [.prompt (selectSessionText (instrPrompt ev.text))
             (env.sessions.map (mkSelBtn (selMsgId ev.user ev.ts)))]) ∧
      (env.sessions.map (mkSelBtn (selMsgId ev.user ev.ts))).length
        = env.sessions.length) := by
  rw [handle_message_route cfg env pending ev hbot hsub hch huser hP hstatus hses
      hls hm hmenu hnomention]
  refine ⟨?_, ?_, ?_⟩
  · intro h0
    simp [h0]
  · intro s h1
    simp [h1, send_to_session, tmux_send, tmux_session_exists]
  · intro a b rest2 h2
    refine ⟨?_, by simp⟩
    simp [h2]

theorem routing_by_session_count_witness :
    handle_message cfg0 env0 []
        ⟨[], [], "U1".toList, "run tests".toList, "im".toList, "1.2".toList⟩
      = ([], [.reply noSessionsMsgRun]) ∧
    handle_message cfg0 env1 []
        ⟨[], [], "U1".toList, "run tests".toList, "im".toList, "1.2".toList⟩
      = ([], [.sendKeys "claude".toList "run tests".toList,
              .sendEnter "claude".toList,
              .reply (confirmMsg "claude".toList "run tests".toList)]) ∧
    handle_message cfg0 env2 []
        ⟨[], [], "U1".toList, "run tests".toList, "im".toList, "1.2".toList⟩
      = (dictInsert [] (selMsgId "U1".toList "1.2".toList) "run tests".toList,
         [.prompt (selectSessionText "run tests".toList)
           (env2.sessions.map (mkSelBtn (selMsgId "U1".toList "1.2".toList)))]) :=
  have h0 := routing_by_session_count cfg0 env0 []
    ⟨[], [], "U1".toList, "run tests".toList, "im".toList, "1.2".toList⟩
    rfl rfl rfl rfl (by decide) (by decide) (by decide) (by decide) (by decide)
    (by decide) (by decide)
  have h1 := routing_by_session_count cfg0 env1 []
    ⟨[], [], "U1".toList, "run tests".toList, "im".toList, "1.2".toList⟩
    rfl rfl rfl rfl (by decide) (by decide) (by decide) (by decide) (by decide)
    (by decide) (by decide)
  have h2 := routing_by_session_count cfg0 env2 []
    ⟨[], [], "U1".toList, "run tests".toList, "im".toList, "1.2".toList⟩
    rfl rfl rfl rfl (by decide) (by decide) (by decide) (by decide) (by decide)
    (by decide) (by decide)
  ⟨h0.1 rfl, h1.2.1 "claude".toList rfl,
   (h2.2.2 "alpha".toList "beta".toList [] rfl).1⟩

/-- C4 counterexample: generated pending ids are not fresh.  Starting
from an empty table, two quick-action prompts create the ids
`quick_y_0` and `quick_y_1`; resolving `quick_y_0` shrinks the table
to one entry, so the next quick-action prompt derives the id
`quick_y_1` — an identifier already present in the pending table at
the moment of insertion, whose insertion therefore overwrites a live
entry instead of adding a fresh one. -/
theorem pending_id_freshness_counterexample :
    (let u := cfg0.allowed_user
     let p1 := (handle_quick_y cfg0 env2 [] u).1
     let p2 := (handle_quick_y cfg0 env2 p1 u).1
     let p3 := (handle_session_select cfg0 env2 p2 u
                  (.decoded (quickMsgId ['y'] 0) "alpha".toList)).1
     dictLookup p3 (quickMsgId ['y'] p3.length) = some ['y'] ∧
     (handle_quick_y cfg0 env2 p3 u).1
       = dictInsert p3 (quickMsgId ['y'] p3.length) ['y'] ∧
     (handle_quick_y cfg0 env2 p3 u).1.length = p3.length) := by decide

/-- C4 amended: identifiers are derived deterministically — requester
identity plus event timestamp for ordinary ambiguous instructions,
`quick_` plus payload plus current table size for quick actions — and
are not guaranteed unique among currently pending identifiers.  When
the derived identifier is absent from the table, the insertion adds
exactly one entry and preserves every live entry; when it is already
present, the insertion overwrites that live entry and the table size
is unchanged. -/
theorem pending_id_derivation
    (cfg : Config) (env : Env) (pending : Dict) (ev : MsgEvent)
    (hbot : ev.bot_id = []) (hsub : ev.subtype = [])
    (hch : ev.channel_type = "im".toList)
    (huser : ev.user = cfg.allowed_user)
    (hP : instrPrompt ev.text ≠ [])
    (hstatus : startsWithL "status".toList (pstrip (toLowerL (instrPrompt ev.text))) = false)
    (hses : pstrip (toLowerL (instrPrompt ev.text)) ≠ "sessions".toList)
    (hls : pstrip (toLowerL (instrPrompt ev.text)) ≠ "ls".toList)
    (hm : pstrip (toLowerL (instrPrompt ev.text)) ≠ "m".toList)
    (hmenu : pstrip (toLowerL (instrPrompt ev.text)) ≠ "menu".toList)
    (hnomention : (parse_mention (instrPrompt ev.text)).1 = none)
    (a b : Str) (rest2 : List Str) (hsess : env.sessions = a :: b :: rest2) :
    (handle_message cfg env pending ev).1
      = dictInsert pending (selMsgId ev.user ev.ts) (instrPrompt ev.text) ∧
    (dictLookup pending (selMsgId ev.user ev.ts) = none →
      (handle_message cfg env pending ev).1.length = pending.length + 1 ∧
      ∀ k, k ≠ selMsgId ev.user ev.ts →
        dictLookup (handle_message cfg env pending ev).1 k = dictLookup pending k) ∧
    (∀ w, dictLookup pending (selMsgId ev.user ev.ts) = some w →
      (handle_message cfg env pending ev).1.length = pending.length) ∧
    (∀ text : Str,
      (quick_send_to_session env pending [] text).1
        = dictInsert pending (quickMsgId text pending.length) text) := by
  have hroute : (handle_message cfg env pending ev).1
      = dictInsert pending (selMsgId ev.user ev.ts) (instrPrompt ev.text) := by
    rw [handle_message_route cfg env pending ev hbot hsub hch huser hP hstatus hses
        hls hm hmenu hnomention]
    simp [hsess]
  refine ⟨hroute, ?_, ?_, ?_⟩
  · intro hnone
    rw [hroute]
    exact ⟨length_dictInsert_none pending _ _ hnone,
           fun k hk => dictLookup_insert_ne pending _ _ k hk⟩
  · intro w hsome
    rw [hroute]
    exact length_dictInsert_some pending _ _ w hsome
  · intro text
    simp [quick_send_to_session, tmux_list_sessions, hsess]

theorem pending_id_derivation_witness :
    (handle_message cfg0 env2 [("x".toList, "q".toList)]
        ⟨[], [], "U1".toList, "run tests".toList, "im".toList, "1.2".toList⟩).1
      = dictInsert [("x".toList, "q".toList)]
          (selMsgId "U1".toList "1.2".toList) "run tests".toList ∧
    (handle_message cfg0 env2 [("x".toList, "q".toList)]
        ⟨[], [], "U1".toList, "run tests".toList, "im".toList, "1.2".toList⟩).1.length
      = 2 ∧
    dictLookup (handle_message cfg0 env2 [("x".toList, "q".toList)]
        ⟨[], [], "U1".toList, "run tests".toList, "im".toList, "1.2".toList⟩).1
        "x".toList
      = some "q".toList :=
  have h := pending_id_derivation cfg0 env2 [("x".toList, "q".toList)]
    ⟨[], [], "U1".toList, "run tests".toList, "im".toList, "1.2".toList⟩
    rfl rfl rfl rfl (by decide) (by decide) (by decide) (by decide) (by decide)
    (by decide) (by decide) "alpha".toList "beta".toList [] rfl
  have h2 := h.2.1 (by decide)
  ⟨h.1, h2.1, by rw [h2.2 "x".toList (by decide)]; rfl⟩

/-- C5 counterexample: the input `"@name "` (trailing whitespace, no
content after it) lacks the whitespace-plus-content shape, yet
`parse_mention` does not return `(none, original)` — it matches and
returns the session name with an empty payload, because the regex
group `(.*)` accepts the empty remainder. -/
theorem parse_mention_counterexample :
    parse_mention "@name ".toList = (some "name".toList, []) ∧
    parse_mention "@name ".toList ≠ (none, "@name ".toList) := by decide

/-- C5 amended: for `@<name><ws><rest>` with non-empty non-whitespace
`<name>` and at least one whitespace character after it, `parse_mention`
returns `(name, rest trimmed)` — including `rest` empty, where it
returns `(name, "")`.  It returns `(none, original text)` exactly when
no whitespace follows the `@token`: the bare `@name`, the empty text,
a text not starting with `@`, or `@` followed directly by whitespace
(empty name). -/
theorem parse_mention_spec
    (name : Str) (hname : name ≠ []) (hnws : ∀ c ∈ name, isWS c = false)
    (w : Char) (hw : isWS w = true) (ws : Str) (hws : ∀ c ∈ ws, isWS c = true)
    (rest : Str) :
    parse_mention ('@' :: (name ++ w :: ws ++ rest)) = (some name, pstrip rest) ∧
    parse_mention ('@' :: name) = (none, '@' :: name) ∧
    (∀ (c : Char) (t : Str), c ≠ '@' → parse_mention (c :: t) = (none, c :: t)) ∧
    parse_mention ([] : Str) = (none, []) ∧
    (∀ (c2 : Char) (t : Str), isWS c2 = true →
      parse_mention ('@' :: c2 :: t) = (none, '@' :: c2 :: t)) := by
  refine ⟨?_, ?_, parse_mention_no_at, rfl, ?_⟩
  · have htake := takeWhile_name_append name w ws rest hnws hw
    have hdrop := dropWhile_name_append name w ws rest hnws hw
    rw [parse_mention_at_pos (name ++ w :: ws ++ rest)
        ⟨by rw [htake]; exact hname, by rw [hdrop]; simp⟩]
    rw [htake, hdrop]
    have hws2 : ((w :: ws) ++ rest).dropWhile isWS = rest.dropWhile isWS :=
      dropWhile_ws_append (w :: ws) rest (by
        intro c hc
        rcases List.mem_cons.mp hc with h | h
        · exact h ▸ hw
        · exact hws c h)
    rw [show w :: ws ++ rest = (w :: ws) ++ rest from rfl, hws2, pstrip_dropWhile]
  · have hdrop : name.dropWhile (fun a => !isWS a) = [] := by
      rw [List.dropWhile_eq_nil_iff]
      intro x hx
      simp [hnws x hx]
    exact parse_mention_at_neg name (by simp [hdrop])
  · intro c2 t hc2
    exact parse_mention_at_neg (c2 :: t) (by simp [List.takeWhile_cons, hc2])

theorem parse_mention_spec_witness :
    parse_mention ('@' :: ("worker1".toList ++ ' ' :: [] ++ "run tests".toList))
      = (some "worker1".toList, pstrip "run tests".toList) ∧
    parse_mention ('@' :: "worker1".toList) = (none, '@' :: "worker1".toList) :=
  have h := parse_mention_spec "worker1".toList (by decide) (by decide)
    ' ' (by decide) [] (by decide) "run tests".toList
  ⟨h.1, h.2.1⟩

/-- C7 counterexample: the confirmation reply of a successful dispatch
echoes the payload untruncated.  For a 100-character payload (past the
80-character cut applied to the log line) the reply text ends with the
full payload; nothing is truncated for display. -/
theorem dispatch_confirmation_untruncated_counterexample :
    send_to_session env1 "claude".toList longPayload
      = [.sendKeys "claude".toList longPayload, .sendEnter "claude".toList,
         .reply (confirmMsg "claude".toList longPayload)] ∧
    80 < longPayload.length ∧
    confirmMsg "claude".toList longPayload
      = ":arrow_right: Sent to `claude`:\n> ".toList ++ longPayload := by decide

/-- C7 amended: `send_to_session` re-checks existence at dispatch
time; on absence it replies not-found with no send and no retry; on
presence it performs the literal write and the commit keystroke and
replies with a confirmation echoing the destination and the full,
untruncated payload (the 80-character truncation applies only to the
log line); the send-failed reply is issued when the underlying send
reports failure. -/
theorem send_to_session_spec (env : Env) (s p : Str) :
    (tmux_session_exists env s = false →
      send_to_session env s p = [.reply (notFoundMsg s)]) ∧
    (tmux_session_exists env s = true →
      send_to_session env s p
        = [.sendKeys s p, .sendEnter s, .reply (confirmMsg s p)] ∧
      confirmMsg s p
        = ":arrow_right: Sent to `".toList ++ s ++ "`:\n> ".toList ++ p) := by
  constructor
  · intro hex
    simp [send_to_session, hex]
  · intro hex
    exact ⟨by simp [send_to_session, tmux_send, hex], rfl⟩

theorem send_to_session_spec_witness :
    send_to_session env1 "claude".toList "run tests".toList
      = [.sendKeys "claude".toList "run tests".toList,
         .sendEnter "claude".toList,
         .reply (confirmMsg "claude".toList "run tests".toList)] ∧
    send_to_session env1 "gone".toList "run tests".toList
      = [.reply (notFoundMsg "gone".toList)] :=
  have h1 := send_to_session_spec env1 "claude".toList "run tests".toList
  have h2 := send_to_session_spec env1 "gone".toList "run tests".toList
  ⟨(h1.2 (by decide)).1, h2.1 (by decide)⟩

/-- C8: `tmux_send` returns false immediately with no write when the
session does not exist; otherwise it performs exactly the literal
write followed by the single commit keystroke and returns true.  At
the subprocess level the result is true whatever the two `send-keys`
calls report, and false (with no write) whenever the `has-session`
probe exits nonzero. -/
theorem tmux_send_spec (env : Env) (s t : Str) :
    (tmux_session_exists env s = false → tmux_send env s t = (false, [])) ∧
    (tmux_session_exists env s = true →
      tmux_send env s t = (true, [.sendKeys s t, .sendEnter s])) ∧
    (∀ (rc1 rc2 : Int) (o o1 o2 : Str),
      tmux_send_impl (.ok 0 o) (.ok rc1 o1) (.ok rc2 o2) = .ok true) ∧
    (∀ (rc : Int) (o : Str) (r1 r2 : ProcResult), rc ≠ 0 →
      tmux_send_impl (.ok rc o) r1 r2 = .ok false) := by
  refine ⟨?_, ?_, ?_, ?_⟩
  · intro hex
    simp [tmux_send, hex]
  · intro hex
    simp [tmux_send, hex]
  · intro rc1 rc2 o o1 o2
    simp [tmux_send_impl]
  · intro rc o r1 r2 hrc
    simp [tmux_send_impl, hrc]

theorem tmux_send_spec_witness :
    tmux_send env1 "claude".toList "hello".toList
      = (true, [.sendKeys "claude".toList "hello".toList,
                .sendEnter "claude".toList]) ∧
    tmux_send env1 "gone".toList "hello".toList = (false, []) ∧
    tmux_send_impl (.ok 0 []) (.ok 1 []) (.ok 7 []) = .ok true ∧
    tmux_send_impl (.ok 1 []) .launchFail .launchFail = .ok false :=
  have h1 := tmux_send_spec env1 "claude".toList "hello".toList
  have h2 := tmux_send_spec env1 "gone".toList "hello".toList
  ⟨h1.2.1 (by decide), h2.1 (by decide), h1.2.2.1 1 7 [] [] [],
   h1.2.2.2 1 [] .launchFail .launchFail (by decide)⟩

/-- C9 counterexample: the adapter operations do not tolerate the host
process itself failing to run.  When launching `tmux` raises (binary
absent), `subprocess.run` is not wrapped in any handler, so the
exception propagates to the caller instead of the documented
empty/false/placeholder value being returned. -/
theorem adapter_raises_on_launch_failure_counterexample :
    tmux_list_sessions_impl ProcResult.launchFail = Except.error () ∧
    tmux_session_exists_impl ProcResult.launchFail = Except.error () ∧
    tmux_send_impl ProcResult.launchFail (.ok 0 []) (.ok 0 []) = Except.error () ∧
    tmux_capture_impl ProcResult.launchFail (.ok 0 []) = Except.error () ∧
    tmux_list_sessions_impl ProcResult.launchFail ≠ Except.ok [] :=
  ⟨rfl, rfl, rfl, rfl, by simp [tmux_list_sessions_impl]⟩

/-- C9 amended: every adapter operation tolerates a nonzero exit code
of the host by returning the documented empty/false/placeholder value,
and never errors as long as every subprocess invocation actually
launches; but a failure to launch the host process itself propagates
as an exception to the caller. -/
theorem adapter_tolerates_nonzero_exit
    (rc : Int) (hrc : rc ≠ 0) (out o2 : Str) :
    tmux_list_sessions_impl (.ok rc out) = .ok [] ∧
    tmux_session_exists_impl (.ok rc out) = .ok false ∧
    (∀ r1 r2 : ProcResult, tmux_send_impl (.ok rc out) r1 r2 = .ok false) ∧
    tmux_capture_impl (.ok rc out) (.ok 0 o2) = .ok "(no session)".toList ∧
    (∀ (rc2 : Int) (o : Str), (tmux_list_sessions_impl (.ok rc2 o)).isOk = true ∧
      (tmux_session_exists_impl (.ok rc2 o)).isOk = true) ∧
    (∀ (rc2 rc3 rc4 : Int) (oa ob oc : Str),
      (tmux_send_impl (.ok rc2 oa) (.ok rc3 ob) (.ok rc4 oc)).isOk = true ∧
      (tmux_capture_impl (.ok rc2 oa) (.ok rc3 ob)).isOk = true) := by
  refine ⟨?_, ?_, ?_, ?_, ?_, ?_⟩
  · simp [tmux_list_sessions_impl, hrc]
  · simp [tmux_session_exists_impl, hrc]
  · intro r1 r2
    simp [tmux_send_impl, hrc]
  · simp [tmux_capture_impl, hrc]
  · intro rc2 o
    constructor
    · by_cases h : rc2 = 0 <;> simp [tmux_list_sessions_impl, h, Except.isOk, Except.toBool]
    · simp [tmux_session_exists_impl, Except.isOk, Except.toBool]
  · intro rc2 rc3 rc4 oa ob oc
    constructor
    · by_cases h : rc2 = 0 <;> simp [tmux_send_impl, h, Except.isOk, Except.toBool]
    · by_cases h : rc2 = 0 <;> simp [tmux_capture_impl, h, Except.isOk, Except.toBool]

theorem adapter_tolerates_nonzero_exit_witness :
    tmux_list_sessions_impl (.ok 1 "x\n".toList) = .ok [] ∧
    tmux_session_exists_impl (.ok 1 []) = .ok false ∧
    tmux_capture_impl (.ok 1 []) (.ok 0 []) = .ok "(no session)".toList :=
  have h := adapter_tolerates_nonzero_exit 1 (by decide) "x\n".toList []
  ⟨h.1, h.2.1, h.2.2.2.1⟩

end SlackBridge
